import Mathlib

/-!
# Shallow embedding of the `runtests` report parser/renderer (src/main.rs)

This file embeds the core of the program: the typed report model
(`TestPass`, `Test`, `Entry`, `Event`, `Device`), the JSON structural
decoder corresponding to the derived `serde` deserializers, the
byte-order-mark handling of `utf_from_bytes`, the ignore-pattern filter
`should_ignore_message`, and the rendering loop of `main` (modelled as a
pure function from a report to the list of printed lines, where each line
is a list of colored text chunks and a panic is an error value).

External collaborators are modelled at their boundary:
* the `regex` crate is modelled on the fragment of patterns the
  configuration uses (an optional leading `^` anchor followed by literal
  characters); patterns outside this fragment, which includes every
  pattern the crate itself rejects such as `"["`, fail to compile;
* `serde_json`'s text-to-JSON parser is modelled as an abstract
  `Option Json` input (`none` = the report text is not valid JSON); the
  structural decoding of a `Json` value into the report model is embedded
  in full;
* `String::from_utf8_lossy` is embedded as a UTF-8 decoder with
  U+FFFD replacement.
-/

deriving instance DecidableEq for Except

namespace ParseTests

/-! ## Colored output model

`colored` turns each styled string into a text run with a color; a printed
line is the list of its runs. `plain` is unstyled text. -/

inductive Color where
  | plain
  | red
  | yellow
  | brightGreen
  | white
  deriving DecidableEq, Repr

structure Chunk where
  text : String
  color : Color
  deriving DecidableEq, Repr

abbrev Line := List Chunk

def plainChunk (s : String) : Chunk := ⟨s, .plain⟩

/-- Concatenation of a line's text with the color markers stripped. -/
def stripColor (line : Line) : String :=
  String.join (line.map Chunk.text)

/-! ## Report model (the `#[derive(Deserialize)]` structs of src/main.rs) -/

inductive EntryType where
  | Info
  | Warning
  | Error
  deriving DecidableEq, Repr

structure Event where
  entry_type : EntryType
  message : String
  context : String
  artifact : String
  deriving DecidableEq, Repr

structure Entry where
  event : Event
  filename : String
  /-- `i32` in the source. -/
  line_number : Int
  timestamp : String
  deriving DecidableEq, Repr

inductive TestResult where
  | NotRun
  | InProcess
  | Fail
  | Success
  | NotEnoughParticipants
  deriving DecidableEq, Repr

structure Test where
  test_display_name : String
  full_test_path : String
  state : TestResult
  entries : List Entry
  warnings : Int
  errors : Int
  artifacts : List String
  deriving DecidableEq, Repr

structure Device where
  device_name : String
  /-- named `instance` in the source; that word is a Lean keyword. -/
  instance_ : String
  platform : String
  os_version : String
  model : String
  gpu : String
  cpu_model : String
  ram_in_gb : Int
  render_mode : String
  rhi : String
  deriving DecidableEq, Repr

structure TestPass where
  devices : Option (List Device)
  report_created_on : String
  succeeded : Int
  succeeded_with_warnings : Int
  failed : Int
  not_run : Int
  in_process : Option Int
  /-- `f32` in the source; modelled as an integer-valued number, since no
  claim depends on fractional durations. -/
  total_duration : Int
  comparison_exported : Bool
  comparison_export_directory : String
  tests : List Test
  deriving DecidableEq, Repr

/-! ## Model of the external `regex` crate

The source calls `regex::Regex::new(pattern).unwrap()` and
`re.is_match(message)`. The crate is modelled on the fragment of patterns
consisting of an optional leading `^` anchor followed by literal
characters; a pattern containing any other metacharacter is outside the
modelled fragment and fails to compile (this includes every pattern the
crate itself rejects, such as the unclosed class `"["`). On the fragment
the crate's unanchored-search semantics are: an unanchored literal matches
iff it occurs as a contiguous substring, and a `^`-anchored literal
matches iff it is a prefix. -/

structure CompiledRegex where
  anchored : Bool
  literal : List Char
  deriving DecidableEq, Repr

def regexMeta : List Char :=
  ['^', '$', '.', '*', '+', '?', '(', ')', '[', ']', '{', '}', '|', '\\']

def compileRegex (pattern : String) : Option CompiledRegex :=
  match pattern.data with
  | '^' :: rest =>
    if rest.all (fun c => !(regexMeta.contains c)) then some ⟨true, rest⟩ else none
  | cs =>
    if cs.all (fun c => !(regexMeta.contains c)) then some ⟨false, cs⟩ else none

/-- Contiguous-substring search used for unanchored matching. -/
def hasSubstr (haystack needle : List Char) : Bool :=
  match haystack with
  | [] => needle.isEmpty
  | _ :: rest => needle.isPrefixOf haystack || hasSubstr rest needle

def CompiledRegex.isMatch (r : CompiledRegex) (message : String) : Bool :=
  if r.anchored then r.literal.isPrefixOf message.data
  else hasSubstr message.data r.literal

/-! ## `should_ignore_message`

The source compiles each pattern inside the per-entry loop and `unwrap`s
the result, so an invalid pattern panics at the first entry whose message
is checked against it; the panic is modelled as the `Except.error`
value. -/

def should_ignore_message (message : String) (ignore_regexes : List String) :
    Except Unit Bool :=
  match ignore_regexes with
  | [] => .ok false
  | ignore_regex :: rest =>
    match compileRegex ignore_regex with
    | none => .error ()
    | some re =>
      if re.isMatch message then .ok true
      else should_ignore_message message rest

/-! ## Rendering (the loop of `main`, lines 180-248 of src/main.rs) -/

def pass_message : Chunk := ⟨"     Success ", .brightGreen⟩
def fail_message : Chunk := ⟨"        Fail ", .red⟩
def warn_message : Chunk := ⟨"     Warning ", .yellow⟩
def empty_spacer : String := "             "
def log_info : Chunk := ⟨"        Info ", .white⟩
def log_warn : Chunk := ⟨"     Warning ", .yellow⟩
def log_error : Chunk := ⟨"       Error ", .red⟩

/-- `println!("{}{}{}", empty_spacer, label, entry.event.message)` -/
def messageLine (label : Chunk) (entry : Entry) : Line :=
  [plainChunk empty_spacer, label, plainChunk entry.event.message]

/-- `println!("{}{}{}:{}", empty_spacer, empty_spacer, entry.filename, entry.line_number)` -/
def locationLine (entry : Entry) : Line :=
  [plainChunk (empty_spacer ++ empty_spacer ++ entry.filename ++ ":" ++ toString entry.line_number)]

/-- Lines one entry contributes inside the `TestResult::Success` arm:
`Warning` and `Error` print a message line and a location line, the
catch-all `_ => {}` prints nothing. -/
def successEntryLines (entry : Entry) : List Line :=
  match entry.event.entry_type with
  | .Warning => [messageLine log_warn entry, locationLine entry]
  | .Error => [messageLine log_error entry, locationLine entry]
  | _ => []

/-- Lines one entry contributes inside the `TestResult::Fail` arm: all
three kinds print, `Warning`/`Error` with a location line beneath. -/
def failEntryLines (entry : Entry) : List Line :=
  match entry.event.entry_type with
  | .Info => [messageLine log_info entry]
  | .Warning => [messageLine log_warn entry, locationLine entry]
  | .Error => [messageLine log_error entry, locationLine entry]

/-- The per-entry loop shared by the `Success` and `Fail` arms: each entry
is first checked against the ignore list (`continue` on a match, panic on
an invalid pattern — lines printed before the panic stay printed), then
rendered by the arm's `match` on the entry kind. -/
def processEntries (entryLines : Entry → List Line) (ignore_regexes : List String) :
    List Entry → List Line × Option Unit
  | [] => ([], none)
  | entry :: rest =>
    match should_ignore_message entry.event.message ignore_regexes with
    | .error _ => ([], some ())
    | .ok true => processEntries entryLines ignore_regexes rest
    | .ok false =>
      let (ls, err) := processEntries entryLines ignore_regexes rest
      (entryLines entry ++ ls, err)

/-- One iteration of `for test in test_pass.tests`: the `match test.state`. -/
def renderTest (ignore_regexes : List String) (test : Test) : List Line × Option Unit :=
  match test.state with
  | .Success =>
    let (ls, err) := processEntries successEntryLines ignore_regexes test.entries
    ([pass_message, ⟨test.full_test_path, .white⟩] :: ls, err)
  | .Fail =>
    let (ls, err) := processEntries failEntryLines ignore_regexes test.entries
    ([fail_message, ⟨test.full_test_path, .white⟩] :: ls, err)
  | _ => ([[warn_message, ⟨test.full_test_path, .yellow⟩]], none)

/-- The whole `for` loop; a panic stops the loop, keeping earlier lines. -/
def renderTests (ignore_regexes : List String) : List Test → List Line × Option Unit
  | [] => ([], none)
  | test :: rest =>
    match renderTest ignore_regexes test with
    | (ls, some e) => (ls, some e)
    | (ls, none) =>
      let (ls2, err) := renderTests ignore_regexes rest
      (ls ++ ls2, err)

/-! ## Sorting

`test_pass.tests.sort_by(|a, b| a.full_test_path.cmp(&b.full_test_path))`
is Rust's stable sort under byte-ordinal string comparison (which on valid
UTF-8 coincides with code-point lexicographic order, Lean's `String`
order). A stable sort by a total preorder is unique as a function, so it
is embedded as insertion sort by the same comparator. -/

/-- Ordinal string comparison: code-point lexicographic order on the
characters. On valid UTF-8 this coincides with Rust's byte-wise
`String::cmp`. -/
def charListLE : List Char → List Char → Bool
  | [], _ => true
  | _ :: _, [] => false
  | a :: as, b :: bs =>
    if a.toNat < b.toNat then true
    else if b.toNat < a.toNat then false
    else charListLE as bs

theorem charListLE_total : ∀ xs ys, charListLE xs ys = true ∨ charListLE ys xs = true
  | [], _ => .inl rfl
  | _ :: _, [] => .inr rfl
  | x :: xs, y :: ys => by
    simp only [charListLE]
    rcases Nat.lt_trichotomy x.toNat y.toNat with h | h | h
    · left
      simp [h]
    · have hxy : ¬ x.toNat < y.toNat := by omega
      have hyx : ¬ y.toNat < x.toNat := by omega
      rcases charListLE_total xs ys with hr | hr
      · left
        simp [hxy, hyx, hr]
      · right
        simp [hxy, hyx, hr]
    · right
      have hxy : ¬ x.toNat < y.toNat := by omega
      simp [h, hxy]

theorem charListLE_refl : ∀ xs, charListLE xs xs = true
  | [] => rfl
  | x :: xs => by simp [charListLE, Nat.lt_irrefl, charListLE_refl xs]

theorem charListLE_trans :
    ∀ xs ys zs, charListLE xs ys = true → charListLE ys zs = true →
      charListLE xs zs = true
  | [], _, _, _, _ => rfl
  | _ :: _, [], _, h, _ => by simp [charListLE] at h
  | _ :: _, _ :: _, [], _, h => by simp [charListLE] at h
  | x :: xs, y :: ys, z :: zs, h1, h2 => by
    simp only [charListLE] at h1 h2 ⊢
    rcases Nat.lt_trichotomy x.toNat y.toNat with hxy | hxy | hxy <;>
      rcases Nat.lt_trichotomy y.toNat z.toNat with hyz | hyz | hyz
    · simp [show x.toNat < z.toNat from by omega]
    · simp [show x.toNat < z.toNat from by omega]
    · simp [show ¬ y.toNat < z.toNat from by omega, hyz] at h2
    · simp [show x.toNat < z.toNat from by omega]
    · have hxz : ¬ x.toNat < z.toNat := by omega
      have hzx : ¬ z.toNat < x.toNat := by omega
      rw [if_neg (show ¬ x.toNat < y.toNat from by omega),
        if_neg (show ¬ y.toNat < x.toNat from by omega)] at h1
      rw [if_neg (show ¬ y.toNat < z.toNat from by omega),
        if_neg (show ¬ z.toNat < y.toNat from by omega)] at h2
      rw [if_neg hxz, if_neg hzx]
      exact charListLE_trans xs ys zs h1 h2
    · simp [show ¬ y.toNat < z.toNat from by omega, hyz] at h2
    · simp [show ¬ x.toNat < y.toNat from by omega, hxy] at h1
    · simp [show ¬ x.toNat < y.toNat from by omega, hxy] at h1
    · simp [show ¬ x.toNat < y.toNat from by omega, hxy] at h1

/-- The sort key `a.full_test_path.cmp(&b.full_test_path)` as a relation. -/
def testLE (a b : Test) : Prop :=
  charListLE a.full_test_path.data b.full_test_path.data = true

instance : DecidableRel testLE := fun a b =>
  inferInstanceAs (Decidable (charListLE a.full_test_path.data b.full_test_path.data = true))

instance : IsTrans Test testLE :=
  ⟨fun _ _ _ hab hbc => charListLE_trans _ _ _ hab hbc⟩

instance : IsTotal Test testLE :=
  ⟨fun a b => charListLE_total a.full_test_path.data b.full_test_path.data⟩

def sortTests (tests : List Test) : List Test :=
  List.insertionSort testLE tests

/-! ## Final summary and elapsed lines (lines 237-248 of src/main.rs) -/

/-- Two's-complement wrap into the signed 32-bit range: the value the
`i32` addition `not_run + succeeded_with_warnings` produces in a release
build when it overflows (a debug build would panic instead of printing at
all; either way the mathematical sum is never printed on overflow). For a
sum already in the `i32` range it is the identity. -/
def wrapI32 (n : Int) : Int := (n + 2147483648) % 4294967296 - 2147483648

/-- The three-branch summary `println!`: each branch formats
`"{} passed, {} failed, {} other"` from the report's own aggregate fields
and colors the whole string; `other_count` is the wrapping `i32` sum. -/
def summaryLine (tp : TestPass) : Line :=
  let succeeded_count := tp.succeeded
  let failed_count := tp.failed
  let other_count := wrapI32 (tp.not_run + tp.succeeded_with_warnings)
  if tp.failed > 0 then
    [⟨toString succeeded_count ++ " passed, " ++ toString failed_count ++ " failed, " ++
        toString other_count ++ " other", .red⟩]
  else if tp.not_run > 0 ∨ tp.succeeded_with_warnings > 0 then
    [⟨toString succeeded_count ++ " passed, " ++ toString failed_count ++ " failed, " ++
        toString other_count ++ " other", .yellow⟩]
  else
    [⟨toString succeeded_count ++ " passed, " ++ toString failed_count ++ " failed, " ++
        toString other_count ++ " other", .brightGreen⟩]

/-- `println!("{}s elapsed", test_pass.total_duration)` -/
def elapsedLine (tp : TestPass) : Line :=
  [plainChunk (toString tp.total_duration ++ "s elapsed")]

inductive RunError where
  | malformedReport
  | invalidIgnorePattern
  deriving DecidableEq, Repr

/-- Everything `main` does after decoding: sort, render each test, then
print the summary and elapsed lines. A panic inside the loop (invalid
ignore pattern) aborts the run keeping the lines already printed. -/
def runReport (ignore_regexes : List String) (tp : TestPass) :
    List Line × Option RunError :=
  let sorted := sortTests tp.tests
  match renderTests ignore_regexes sorted with
  | (ls, some _) => (ls, some .invalidIgnorePattern)
  | (ls, none) => (ls ++ [summaryLine tp, elapsedLine tp], none)

/-! ## `utf_from_bytes` (lines 92-99 of src/main.rs)

`String::from_utf8_lossy` is embedded as a UTF-8 decoder over byte lists
that replaces each maximal invalid subpart with U+FFFD (the substitution
policy documented for the Rust standard library). -/

def isCont (b : Nat) : Bool := 0x80 ≤ b && b ≤ 0xBF

/-- Validity of the first continuation byte of a 3-byte sequence (the
lead byte restricts its range: overlong and surrogate encodings are
invalid). -/
def cont2ok (lead b : Nat) : Bool :=
  if lead = 0xE0 then 0xA0 ≤ b && b ≤ 0xBF
  else if lead = 0xED then 0x80 ≤ b && b ≤ 0x9F
  else isCont b

/-- Validity of the first continuation byte of a 4-byte sequence. -/
def cont3ok (lead b : Nat) : Bool :=
  if lead = 0xF0 then 0x90 ≤ b && b ≤ 0xBF
  else if lead = 0xF4 then 0x80 ≤ b && b ≤ 0x8F
  else isCont b

/-- The scalar value of a decoded 2-byte sequence. -/
def char2 (b b2 : Nat) : Char := Char.ofNat ((b - 0xC0) * 64 + (b2 - 0x80))

/-- The scalar value of a decoded 3-byte sequence. -/
def char3 (b b2 b3 : Nat) : Char :=
  Char.ofNat ((b - 0xE0) * 4096 + (b2 - 0x80) * 64 + (b3 - 0x80))

/-- The scalar value of a decoded 4-byte sequence. -/
def char4 (b b2 b3 b4 : Nat) : Char :=
  Char.ofNat ((b - 0xF0) * 262144 + (b2 - 0x80) * 4096 + (b3 - 0x80) * 64 + (b4 - 0x80))

/-- 2-byte lead byte (`0xC2..=0xDF`; `0xC0`/`0xC1` would be overlong). -/
def isLead2 (b : Nat) : Bool := 0xC2 ≤ b && b ≤ 0xDF

/-- 3-byte lead byte. -/
def isLead3 (b : Nat) : Bool := 0xE0 ≤ b && b ≤ 0xEF

/-- 4-byte lead byte (`0xF5..` would exceed U+10FFFF). -/
def isLead4 (b : Nat) : Bool := 0xF0 ≤ b && b ≤ 0xF4

def utf8DecodeLossy : List Nat → List Char
  | [] => []
  | [b] =>
    if b ≤ 0x7F then [Char.ofNat b] else ['�']
  | [b, b2] =>
    if b ≤ 0x7F then Char.ofNat b :: utf8DecodeLossy [b2]
    else if isLead2 b then
      if isCont b2 then [char2 b b2] else '�' :: utf8DecodeLossy [b2]
    else if isLead3 b then
      if cont2ok b b2 then ['�'] else '�' :: utf8DecodeLossy [b2]
    else if isLead4 b then
      if cont3ok b b2 then ['�'] else '�' :: utf8DecodeLossy [b2]
    else '�' :: utf8DecodeLossy [b2]
  | [b, b2, b3] =>
    if b ≤ 0x7F then Char.ofNat b :: utf8DecodeLossy [b2, b3]
    else if isLead2 b then
      if isCont b2 then char2 b b2 :: utf8DecodeLossy [b3]
      else '�' :: utf8DecodeLossy [b2, b3]
    else if isLead3 b then
      if cont2ok b b2 then
        if isCont b3 then [char3 b b2 b3] else '�' :: utf8DecodeLossy [b3]
      else '�' :: utf8DecodeLossy [b2, b3]
    else if isLead4 b then
      if cont3ok b b2 then
        if isCont b3 then ['�'] else '�' :: utf8DecodeLossy [b3]
      else '�' :: utf8DecodeLossy [b2, b3]
    else '�' :: utf8DecodeLossy [b2, b3]
  | b :: b2 :: b3 :: b4 :: rest =>
    if b ≤ 0x7F then Char.ofNat b :: utf8DecodeLossy (b2 :: b3 :: b4 :: rest)
    else if isLead2 b then
      if isCont b2 then char2 b b2 :: utf8DecodeLossy (b3 :: b4 :: rest)
      else '�' :: utf8DecodeLossy (b2 :: b3 :: b4 :: rest)
    else if isLead3 b then
      if cont2ok b b2 then
        if isCont b3 then char3 b b2 b3 :: utf8DecodeLossy (b4 :: rest)
        else '�' :: utf8DecodeLossy (b3 :: b4 :: rest)
      else '�' :: utf8DecodeLossy (b2 :: b3 :: b4 :: rest)
    else if isLead4 b then
      if cont3ok b b2 then
        if isCont b3 then
          if isCont b4 then char4 b b2 b3 b4 :: utf8DecodeLossy rest
          else '�' :: utf8DecodeLossy (b4 :: rest)
        else '�' :: utf8DecodeLossy (b3 :: b4 :: rest)
      else '�' :: utf8DecodeLossy (b2 :: b3 :: b4 :: rest)
    else '�' :: utf8DecodeLossy (b2 :: b3 :: b4 :: rest)

/-- The UTF-8 encoding of the byte-order mark U+FEFF. -/
def bomBytes : List Nat := [0xEF, 0xBB, 0xBF]

/-- Lines 92-99 of src/main.rs: decode the bytes; if the decoded text
starts with U+FEFF, re-decode from byte 3 on. The decoded text is
represented as its character list. -/
def utf_from_bytes (buffer : List Nat) : List Char :=
  let index_json_string := utf8DecodeLossy buffer
  if index_json_string.head? = some '﻿' then
    utf8DecodeLossy (buffer.drop 3)
  else
    index_json_string

/-! ## JSON structural decoding

The report document is a JSON value; its numbers are modelled as integers
(every count field in the schema is an integer type; `totalDuration` is
`f32` in the source but no claim depends on fractional values).
`serde_json`'s text parser is external; the structural decoding done by
the derived `Deserialize` implementations — required fields, `Option`
fields, enum string literals, `i32` range — is embedded below. Unknown
object keys are ignored, as the derives do without `deny_unknown_fields`. -/

inductive Json where
  | null : Json
  | bool : Bool → Json
  | num : Int → Json
  | str : String → Json
  | arr : List Json → Json
  | obj : List (String × Json) → Json

def getField (fields : List (String × Json)) (key : String) : Option Json :=
  match fields with
  | [] => none
  | (k, v) :: rest => if k = key then some v else getField rest key

/-- A required struct field: absence is a decode error. -/
def reqField (fields : List (String × Json)) (key : String) : Except Unit Json :=
  match getField fields key with
  | some v => .ok v
  | none => .error ()

/-- An `Option<T>` struct field: a missing key or an explicit `null`
decodes to `none`. -/
def optField (fields : List (String × Json)) (key : String)
    (dec : Json → Except Unit α) : Except Unit (Option α) :=
  match getField fields key with
  | none => .ok none
  | some .null => .ok none
  | some v => do
    let x ← dec v
    .ok (some x)

def decodeString : Json → Except Unit String
  | .str s => .ok s
  | _ => .error ()

def decodeBool : Json → Except Unit Bool
  | .bool b => .ok b
  | _ => .error ()

/-- An `i32` field: an integral number within the signed 32-bit range. -/
def decodeI32 : Json → Except Unit Int
  | .num n => if -2147483648 ≤ n ∧ n < 2147483648 then .ok n else .error ()
  | _ => .error ()

/-- The `f32` field (integral values only, see above). -/
def decodeF32 : Json → Except Unit Int
  | .num n => .ok n
  | _ => .error ()

def decodeArray (dec : Json → Except Unit α) : List Json → Except Unit (List α)
  | [] => .ok []
  | j :: rest => do
    let x ← dec j
    let xs ← decodeArray dec rest
    .ok (x :: xs)

def decodeList (dec : Json → Except Unit α) : Json → Except Unit (List α)
  | .arr items => decodeArray dec items
  | _ => .error ()

/-- The fieldless `EntryType` enum deserializes from its variant name. -/
def decodeEntryType : Json → Except Unit EntryType
  | .str s =>
    if s = "Info" then .ok .Info
    else if s = "Warning" then .ok .Warning
    else if s = "Error" then .ok .Error
    else .error ()
  | _ => .error ()

/-- The fieldless `TestResult` enum deserializes from its variant name. -/
def decodeTestResult : Json → Except Unit TestResult
  | .str s =>
    if s = "NotRun" then .ok .NotRun
    else if s = "InProcess" then .ok .InProcess
    else if s = "Fail" then .ok .Fail
    else if s = "Success" then .ok .Success
    else if s = "NotEnoughParticipants" then .ok .NotEnoughParticipants
    else .error ()
  | _ => .error ()

def decodeEvent : Json → Except Unit Event
  | .obj fields => do
    let entry_type ← reqField fields "type" >>= decodeEntryType
    let message ← reqField fields "message" >>= decodeString
    let context ← reqField fields "context" >>= decodeString
    let artifact ← reqField fields "artifact" >>= decodeString
    .ok { entry_type, message, context, artifact }
  | _ => .error ()

def decodeEntry : Json → Except Unit Entry
  | .obj fields => do
    let event ← reqField fields "event" >>= decodeEvent
    let filename ← reqField fields "filename" >>= decodeString
    let line_number ← reqField fields "lineNumber" >>= decodeI32
    let timestamp ← reqField fields "timestamp" >>= decodeString
    .ok { event, filename, line_number, timestamp }
  | _ => .error ()

def decodeTest : Json → Except Unit Test
  | .obj fields => do
    let test_display_name ← reqField fields "testDisplayName" >>= decodeString
    let full_test_path ← reqField fields "fullTestPath" >>= decodeString
    let state ← reqField fields "state" >>= decodeTestResult
    let entries ← reqField fields "entries" >>= decodeList decodeEntry
    let warnings ← reqField fields "warnings" >>= decodeI32
    let errors ← reqField fields "errors" >>= decodeI32
    let artifacts ← reqField fields "artifacts" >>= decodeList decodeString
    .ok { test_display_name, full_test_path, state, entries, warnings, errors, artifacts }
  | _ => .error ()

def decodeDevice : Json → Except Unit Device
  | .obj fields => do
    let device_name ← reqField fields "deviceName" >>= decodeString
    let instance_ ← reqField fields "instance" >>= decodeString
    let platform ← reqField fields "platform" >>= decodeString
    let os_version ← reqField fields "oSVersion" >>= decodeString
    let model ← reqField fields "model" >>= decodeString
    let gpu ← reqField fields "gPU" >>= decodeString
    let cpu_model ← reqField fields "cPUModel" >>= decodeString
    let ram_in_gb ← reqField fields "rAMInGB" >>= decodeI32
    let render_mode ← reqField fields "renderMode" >>= decodeString
    let rhi ← reqField fields "rHI" >>= decodeString
    .ok { device_name, instance_, platform, os_version, model, gpu, cpu_model,
          ram_in_gb, render_mode, rhi }
  | _ => .error ()

def decodeTestPass : Json → Except Unit TestPass
  | .obj fields => do
    let devices ← optField fields "devices" (decodeList decodeDevice)
    let report_created_on ← reqField fields "reportCreatedOn" >>= decodeString
    let succeeded ← reqField fields "succeeded" >>= decodeI32
    let succeeded_with_warnings ← reqField fields "succeededWithWarnings" >>= decodeI32
    let failed ← reqField fields "failed" >>= decodeI32
    let not_run ← reqField fields "notRun" >>= decodeI32
    let in_process ← optField fields "inProcess" decodeI32
    let total_duration ← reqField fields "totalDuration" >>= decodeF32
    let comparison_exported ← reqField fields "comparisonExported" >>= decodeBool
    let comparison_export_directory ← reqField fields "comparisonExportDirectory" >>= decodeString
    let tests ← reqField fields "tests" >>= decodeList decodeTest
    .ok { devices, report_created_on, succeeded, succeeded_with_warnings, failed,
          not_run, in_process, total_duration, comparison_exported,
          comparison_export_directory, tests }
  | _ => .error ()

/-- The whole run after the report file's bytes have been read: the text
parses to a JSON value or not (`parsed`, the external `serde_json` text
parser's result), the value decodes structurally, and on success the
report is rendered. `expect("invalid json")` panics before anything is
printed, so a decode failure produces no lines. -/
def runProgram (ignore_regexes : List String) (parsed : Option Json) :
    List Line × Option RunError :=
  match parsed with
  | none => ([], some .malformedReport)
  | some j =>
    match decodeTestPass j with
    | .error _ => ([], some .malformedReport)
    | .ok tp => runReport ignore_regexes tp

/-! ## Helper lemmas -/

/-- Bind inversion for `Except`. -/
theorem except_bind_ok {α β : Type} {x : Except Unit α} {f : α → Except Unit β} {b : β} :
    x >>= f = .ok b ↔ ∃ a, x = .ok a ∧ f a = .ok b := by
  cases x <;> simp [Bind.bind, Except.bind]

/-- An entry survives the ignore filter (its check returned `Ok(false)`). -/
def isVisible (ignore_regexes : List String) (e : Entry) : Bool :=
  match should_ignore_message e.event.message ignore_regexes with
  | .ok false => true
  | _ => false

theorem processEntries_ok {f : Entry → List Line} {ig : List String} {es : List Entry}
    {ls : List Line} (h : processEntries f ig es = (ls, none)) :
    ls = (es.filter (isVisible ig)).flatMap f := by
  induction es generalizing ls with
  | nil =>
    simp only [processEntries, Prod.mk.injEq] at h
    simp [← h.1]
  | cons e rest ih =>
    rcases hsi : should_ignore_message e.event.message ig with u | b
    · simp [processEntries, hsi] at h
    · cases b with
      | true =>
        simp only [processEntries, hsi] at h
        rw [ih h]
        simp [List.filter_cons, isVisible, hsi]
      | false =>
        rcases hp : processEntries f ig rest with ⟨ls2, err⟩
        simp only [processEntries, hsi, hp, Prod.mk.injEq] at h
        obtain ⟨h1, h2⟩ := h
        cases err with
        | some u => simp at h2
        | none =>
          rw [← h1, ih hp, List.filter_cons, isVisible, hsi]
          simp

theorem processEntries_err {f : Entry → List Line} {ig : List String} {es : List Entry} :
    (processEntries f ig es).2 = some () ↔
      ∃ e ∈ es, should_ignore_message e.event.message ig = .error () := by
  induction es with
  | nil => simp [processEntries]
  | cons e rest ih =>
    rcases hsi : should_ignore_message e.event.message ig with u | b
    · cases u
      simp [processEntries, hsi]
    · cases b with
      | true =>
        simp only [processEntries, hsi]
        rw [ih]
        constructor
        · rintro ⟨e', he', hs⟩
          exact ⟨e', List.mem_cons_of_mem _ he', hs⟩
        · rintro ⟨e', he', hs⟩
          rcases List.mem_cons.mp he' with rfl | he'
          · rw [hsi] at hs; cases hs
          · exact ⟨e', he', hs⟩
      | false =>
        rcases hp : processEntries f ig rest with ⟨ls2, err⟩
        simp only [processEntries, hsi, hp]
        have := ih
        rw [hp] at this
        simp only at this
        rw [this]
        constructor
        · rintro ⟨e', he', hs⟩
          exact ⟨e', List.mem_cons_of_mem _ he', hs⟩
        · rintro ⟨e', he', hs⟩
          rcases List.mem_cons.mp he' with rfl | he'
          · rw [hsi] at hs; cases hs
          · exact ⟨e', he', hs⟩

theorem renderTest_success_ok {ig : List String} {t : Test} {ls : List Line}
    (hst : t.state = .Success) (h : renderTest ig t = (ls, none)) :
    ls = [pass_message, ⟨t.full_test_path, .white⟩] ::
      (t.entries.filter (isVisible ig)).flatMap successEntryLines := by
  rcases hp : processEntries successEntryLines ig t.entries with ⟨ls2, err⟩
  simp only [renderTest, hst, hp, Prod.mk.injEq] at h
  obtain ⟨h1, h2⟩ := h
  cases err with
  | some u => simp at h2
  | none => rw [← h1, processEntries_ok hp]

theorem renderTest_fail_ok {ig : List String} {t : Test} {ls : List Line}
    (hst : t.state = .Fail) (h : renderTest ig t = (ls, none)) :
    ls = [fail_message, ⟨t.full_test_path, .white⟩] ::
      (t.entries.filter (isVisible ig)).flatMap failEntryLines := by
  rcases hp : processEntries failEntryLines ig t.entries with ⟨ls2, err⟩
  simp only [renderTest, hst, hp, Prod.mk.injEq] at h
  obtain ⟨h1, h2⟩ := h
  cases err with
  | some u => simp at h2
  | none => rw [← h1, processEntries_ok hp]

theorem renderTest_other {ig : List String} {t : Test}
    (h1 : t.state ≠ .Success) (h2 : t.state ≠ .Fail) :
    renderTest ig t = ([[warn_message, ⟨t.full_test_path, .yellow⟩]], none) := by
  cases hst : t.state <;> simp_all [renderTest]

theorem renderTest_err {ig : List String} {t : Test} :
    (renderTest ig t).2 = some () ↔
      (t.state = .Success ∨ t.state = .Fail) ∧
        ∃ e ∈ t.entries, should_ignore_message e.event.message ig = .error () := by
  cases hst : t.state <;>
    simp [renderTest, hst, processEntries_err]

theorem renderTests_err {ig : List String} {ts : List Test} :
    (renderTests ig ts).2 = some () ↔ ∃ t ∈ ts, (renderTest ig t).2 = some () := by
  induction ts with
  | nil => simp [renderTests]
  | cons t rest ih =>
    rcases hr : renderTest ig t with ⟨ls, err⟩
    cases err with
    | some u =>
      cases u
      simp only [renderTests, hr]
      constructor
      · intro _
        exact ⟨t, List.mem_cons_self t rest, by rw [hr]⟩
      · intro _; trivial
    | none =>
      rcases hrs : renderTests ig rest with ⟨ls2, err2⟩
      simp only [renderTests, hr, hrs]
      have := ih
      rw [hrs] at this
      simp only at this
      rw [this]
      constructor
      · rintro ⟨t', ht', hs⟩
        exact ⟨t', List.mem_cons_of_mem _ ht', hs⟩
      · rintro ⟨t', ht', hs⟩
        rcases List.mem_cons.mp ht' with rfl | ht'
        · rw [hr] at hs; cases hs
        · exact ⟨t', ht', hs⟩

theorem runReport_ok {ig : List String} {tp : TestPass} {ls : List Line}
    (h : runReport ig tp = (ls, none)) :
    ∃ body, renderTests ig (sortTests tp.tests) = (body, none) ∧
      ls = body ++ [summaryLine tp, elapsedLine tp] := by
  rcases hr : renderTests ig (sortTests tp.tests) with ⟨body, err⟩
  cases err with
  | some u => simp [runReport, hr] at h
  | none =>
    simp only [runReport, hr, Prod.mk.injEq] at h
    exact ⟨body, rfl, h.1.symm⟩

theorem runReport_err {ig : List String} {tp : TestPass} :
    (runReport ig tp).2 = some .invalidIgnorePattern ↔
      (renderTests ig (sortTests tp.tests)).2 = some () := by
  rcases hr : renderTests ig (sortTests tp.tests) with ⟨body, err⟩
  cases err with
  | some u => cases u; simp [runReport, hr]
  | none => simp [runReport, hr]

/-! ## Claims -/

/-- **C5**: after loading, `tests` is a permutation of the input that is
non-decreasing by `fullTestPath` under ordinal string comparison, and
tests with equal `fullTestPath` retain their relative input order (the
sort is stable). -/
theorem c5_sort_stable (ts : List Test) :
    (sortTests ts).Perm ts ∧
    (sortTests ts).Pairwise testLE ∧
    ∀ p : String,
      (sortTests ts).filter (fun t => t.full_test_path == p) =
        ts.filter (fun t => t.full_test_path == p) := by
  refine ⟨List.perm_insertionSort testLE ts, List.sorted_insertionSort testLE ts, ?_⟩
  intro p
  have hall : ∀ x ∈ ts.filter (fun t => t.full_test_path == p),
      ∀ y ∈ ts.filter (fun t => t.full_test_path == p), testLE x y := by
    intro x hx y hy
    have hx' := (List.mem_filter.mp hx).2
    have hy' := (List.mem_filter.mp hy).2
    simp only [beq_iff_eq] at hx' hy'
    unfold testLE
    rw [hx', hy']
    exact charListLE_refl p.data
  have hsub : List.Sublist (ts.filter (fun t => t.full_test_path == p)) (sortTests ts) :=
    List.sublist_insertionSort (List.pairwise_of_forall_mem_list hall)
      (List.filter_sublist ts)
  have hself : (ts.filter (fun t => t.full_test_path == p)).filter
      (fun t => t.full_test_path == p) = ts.filter (fun t => t.full_test_path == p) :=
    List.filter_eq_self.mpr (fun a ha => (List.mem_filter.mp ha).2)
  have hsub2 : List.Sublist (ts.filter (fun t => t.full_test_path == p))
      ((sortTests ts).filter (fun t => t.full_test_path == p)) := by
    have := hsub.filter (fun t => t.full_test_path == p)
    rwa [hself] at this
  have hlen : ((sortTests ts).filter (fun t => t.full_test_path == p)).length =
      (ts.filter (fun t => t.full_test_path == p)).length :=
    ((List.perm_insertionSort testLE ts).filter (fun t => t.full_test_path == p)).length_eq
  exact (hsub2.eq_of_length hlen.symm).symm

/-! Overflow of the summary's `other` sum: the decoder admits each count
up to `i32::MAX`, and the `i32` addition at main.rs:239 then wraps
(release) or panics (debug) — the mathematical sum is never printed. -/

def wrapFields : List (String × Json) :=
  [("reportCreatedOn", .str ""), ("succeeded", .num 0),
   ("succeededWithWarnings", .num 2147483647), ("failed", .num 0),
   ("notRun", .num 2147483647), ("totalDuration", .num 0),
   ("comparisonExported", .bool false), ("comparisonExportDirectory", .str ""),
   ("tests", .arr [])]

def wrapDoc : Json := .obj wrapFields

def wrapPass : TestPass :=
  ⟨none, "", 0, 2147483647, 0, 2147483647, none, 0, false, "", []⟩

/-- Counterexample to **C4**: at a decodable report with both `notRun`
and `succeededWithWarnings` at `i32::MAX`, the summary text carries the
wrapped sum `-2`, not the claimed exact sum `4294967294`. -/
theorem c4_counterexample :
    decodeTestPass wrapDoc = .ok wrapPass ∧
    stripColor (summaryLine wrapPass) = "0 passed, 0 failed, -2 other" ∧
    stripColor (summaryLine wrapPass) ≠
      toString wrapPass.succeeded ++ " passed, " ++ toString wrapPass.failed ++
        " failed, " ++
        toString (wrapPass.not_run + wrapPass.succeeded_with_warnings) ++ " other" :=
  ⟨by decide, by decide, by decide⟩

/-- **C4 (amended)**: the summary line's text stripped of color markers
is exactly `"<succeeded> passed, <failed> failed, <other> other"` with
`<other>` the wrapping 32-bit sum of `notRun` and `succeededWithWarnings`
— equal to the mathematical sum whenever that sum is in the `i32` range —
and the text identical across the three color branches; the color is red
when `failed > 0`, else yellow when `notRun > 0` or
`succeededWithWarnings > 0`, else bright green. -/
theorem c4_summary_text_and_color (tp : TestPass) :
    stripColor (summaryLine tp) =
      toString tp.succeeded ++ " passed, " ++ toString tp.failed ++ " failed, " ++
        toString (wrapI32 (tp.not_run + tp.succeeded_with_warnings)) ++ " other" ∧
    (summaryLine tp).map Chunk.color =
      [if tp.failed > 0 then Color.red
       else if tp.not_run > 0 ∨ tp.succeeded_with_warnings > 0 then Color.yellow
       else Color.brightGreen] ∧
    (-2147483648 ≤ tp.not_run + tp.succeeded_with_warnings →
      tp.not_run + tp.succeeded_with_warnings < 2147483648 →
      wrapI32 (tp.not_run + tp.succeeded_with_warnings) =
        tp.not_run + tp.succeeded_with_warnings) := by
  refine ⟨?_, ?_, ?_⟩
  · unfold summaryLine
    split
    · simp_all [stripColor, String.join]
    · split <;> simp_all [stripColor, String.join]
  · unfold summaryLine
    split
    · simp_all [stripColor, String.join]
    · split <;> simp_all [stripColor, String.join]
  · intro h1 h2
    unfold wrapI32
    omega

/-- Counterexample to **C3**: a decodable report with both `notRun` and
`succeededWithWarnings` at `i32::MAX` renders a summary carrying the
wrapped `i32` sum `-2`, not `other = notRun + succeededWithWarnings =
4294967294` as the claim asserts. -/
theorem c3_counterexample :
    decodeTestPass wrapDoc = .ok wrapPass ∧
    runProgram [] (some wrapDoc) =
      ([[⟨"0 passed, 0 failed, -2 other", .yellow⟩],
        [plainChunk "0s elapsed"]], none) ∧
    toString (wrapPass.not_run + wrapPass.succeeded_with_warnings) = "4294967294" ∧
    stripColor (summaryLine wrapPass) ≠
      "0 passed, 0 failed, " ++
        toString (wrapPass.not_run + wrapPass.succeeded_with_warnings) ++ " other" :=
  ⟨by decide, by decide, by decide, by decide⟩

/-- **C3 (amended)**: for every successfully rendered report, the output
ends with the summary and elapsed lines, the summary text is built from
the report's own `succeeded`/`failed`/`notRun`/`succeededWithWarnings`
fields — `succeeded` and `failed` verbatim, `other` as the wrapping
32-bit `i32` sum of `notRun` and `succeededWithWarnings` (equal to their
exact sum whenever it fits in `i32`) — and replacing the `tests` sequence
by any other leaves the summary line unchanged (the counts are never
recomputed from `tests`). -/
theorem c3_aggregate_independence (ig : List String) (tp : TestPass) (ls : List Line)
    (h : runReport ig tp = (ls, none)) :
    (∃ body, ls = body ++ [summaryLine tp, elapsedLine tp]) ∧
    stripColor (summaryLine tp) =
      toString tp.succeeded ++ " passed, " ++ toString tp.failed ++ " failed, " ++
        toString (wrapI32 (tp.not_run + tp.succeeded_with_warnings)) ++ " other" ∧
    ∀ tests2 : List Test, summaryLine { tp with tests := tests2 } = summaryLine tp := by
  obtain ⟨body, _, hls⟩ := runReport_ok h
  refine ⟨⟨body, hls⟩, ?_, ?_⟩
  · unfold summaryLine
    split
    · simp_all [stripColor, String.join]
    · split <;> simp_all [stripColor, String.join]
  · intro tests2
    rfl

/-! ## Concrete sample data for witnesses and counterexamples -/

def sampleWarnEntry : Entry := ⟨⟨.Warning, "slow", "", ""⟩, "file.cpp", 10, ""⟩
def sampleErrEntry : Entry := ⟨⟨.Error, "crashed", "", ""⟩, "file.cpp", 42, ""⟩
def sampleTestA : Test := ⟨"A", "A.Test", .Success, [sampleWarnEntry], 1, 0, []⟩
def sampleTestB : Test := ⟨"B", "B.Test", .Fail, [sampleErrEntry], 0, 1, []⟩
def sampleReport : TestPass := ⟨none, "", 2, 0, 1, 0, none, 7, false, "", [sampleTestB, sampleTestA]⟩

/-- Witness for C3 at a concrete report. -/
theorem c3_aggregate_independence_witness :
    runReport [] sampleReport = ((runReport [] sampleReport).1, none) ∧
    (∃ body, (runReport [] sampleReport).1 =
      body ++ [summaryLine sampleReport, elapsedLine sampleReport]) :=
  ⟨by decide,
   (c3_aggregate_independence [] sampleReport (runReport [] sampleReport).1 (by decide)).1⟩

/-- Witness for the amended C4 at a concrete in-range report. -/
theorem c4_summary_text_and_color_witness :
    (-2147483648 ≤ sampleReport.not_run + sampleReport.succeeded_with_warnings) ∧
    (sampleReport.not_run + sampleReport.succeeded_with_warnings < 2147483648) ∧
    wrapI32 (sampleReport.not_run + sampleReport.succeeded_with_warnings) =
      sampleReport.not_run + sampleReport.succeeded_with_warnings ∧
    stripColor (summaryLine sampleReport) = "2 passed, 1 failed, 0 other" := by
  refine ⟨by decide, by decide, ?_, ?_⟩
  · exact (c4_summary_text_and_color sampleReport).2.2 (by decide) (by decide)
  · rw [(c4_summary_text_and_color sampleReport).1]
    decide

/-! ## C7: ignore-pattern suppression -/

theorem should_ignore_eq_any {message : String} : ∀ {ps : List String},
    (∀ p ∈ ps, (compileRegex p).isSome) →
    should_ignore_message message ps =
      .ok (ps.any fun p => ((compileRegex p).map (fun r => r.isMatch message)).getD false)
  | [], _ => rfl
  | p :: rest, hval => by
    obtain ⟨r, hr⟩ := Option.isSome_iff_exists.mp (hval p (List.mem_cons_self p rest))
    simp only [should_ignore_message, hr, List.any_cons]
    cases hm : r.isMatch message with
    | true => simp [hm]
    | false =>
      rw [if_neg (fun hc => Bool.noConfusion hc),
        should_ignore_eq_any (fun q hq => hval q (List.mem_cons_of_mem _ hq))]
      simp [hm]

/-- **C7**: with a valid ignore list, the filter returns exactly "the
message matches some pattern" (first match short-circuits); the empty
list never suppresses; and in both the Success and Fail arms the rendered
lines are the header followed by the blocks of exactly the entries the
one shared filter lets through, so suppression is uniform across buckets
and entry kinds. -/
theorem c7_ignore_suppression (message : String) (ignore_regexes : List String)
    (hval : ∀ p ∈ ignore_regexes, (compileRegex p).isSome) :
    should_ignore_message message ignore_regexes =
      .ok (ignore_regexes.any fun p =>
        ((compileRegex p).map (fun r => r.isMatch message)).getD false) ∧
    (should_ignore_message message ignore_regexes = .ok true ↔
      ∃ p ∈ ignore_regexes, ∃ r, compileRegex p = some r ∧ r.isMatch message = true) ∧
    should_ignore_message message [] = .ok false ∧
    (∀ p rest r, compileRegex p = some r → r.isMatch message = true →
      should_ignore_message message (p :: rest) = .ok true) ∧
    (∀ t ls, renderTest ignore_regexes t = (ls, none) →
      (t.state = .Success →
        ls = [pass_message, ⟨t.full_test_path, .white⟩] ::
          (t.entries.filter (isVisible ignore_regexes)).flatMap successEntryLines) ∧
      (t.state = .Fail →
        ls = [fail_message, ⟨t.full_test_path, .white⟩] ::
          (t.entries.filter (isVisible ignore_regexes)).flatMap failEntryLines)) ∧
    (∀ e : Entry, isVisible ignore_regexes e = false ↔
      should_ignore_message e.event.message ignore_regexes = .ok true) := by
  have hany := @should_ignore_eq_any message ignore_regexes hval
  refine ⟨hany, ?_, rfl, ?_, ?_, ?_⟩
  · rw [hany]
    simp only [Except.ok.injEq, List.any_eq_true]
    constructor
    · rintro ⟨p, hp, hm⟩
      obtain ⟨r, hr⟩ := Option.isSome_iff_exists.mp (hval p hp)
      rw [hr] at hm
      simp at hm
      exact ⟨p, hp, r, hr, hm⟩
    · rintro ⟨p, hp, r, hr, hm⟩
      refine ⟨p, hp, ?_⟩
      simp [hr, hm]
  · intro p rest r hr hm
    simp [should_ignore_message, hr, hm]
  · intro t ls h
    exact ⟨fun hst => renderTest_success_ok hst h, fun hst => renderTest_fail_ok hst h⟩
  · intro e
    have he := @should_ignore_eq_any e.event.message ignore_regexes hval
    unfold isVisible
    rw [he]
    cases hb : (ignore_regexes.any fun p =>
        ((compileRegex p).map (fun r => r.isMatch e.event.message)).getD false) <;> simp

/-- Witness for C7: pattern `"^Retry"` suppresses `"Retry attempt 1"`. -/
theorem c7_ignore_suppression_witness :
    (∀ p ∈ ["^Retry"], (compileRegex p).isSome) ∧
    should_ignore_message "Retry attempt 1" ["^Retry"] = .ok true ∧
    should_ignore_message "Deprecated API" ["^Retry"] = .ok false := by
  refine ⟨by decide, ?_, ?_⟩
  · rw [(c7_ignore_suppression "Retry attempt 1" ["^Retry"] (by decide)).1]
    decide
  · rw [(c7_ignore_suppression "Deprecated API" ["^Retry"] (by decide)).1]
    decide

/-! ## C1: invalid ignore patterns are detected lazily, not up front -/

def c1Test : Test := ⟨"T", "A.Test", .Success, [], 0, 0, []⟩

def c1Report : TestPass := ⟨none, "", 1, 0, 0, 0, none, 0, false, "", [c1Test]⟩

/-- Counterexample to **C1**: with the malformed ignore pattern `"["`
configured and a report whose only test has no entries, the program does
not fail at all — it classifies the test, renders its line and the
summary, and exits cleanly. There is no fatal configuration error before
entry processing, and whether a failure happens at all depends on which
entries are present. -/
theorem c1_counterexample :
    compileRegex "[" = none ∧
    (runReport ["["] c1Report).2 = none ∧
    (runReport ["["] c1Report).1 ≠ [] :=
  ⟨rfl, by decide, by decide⟩

/-- **C1 (amended)**: an invalid ignore pattern is not a fail-fast
configuration error; the run aborts with the pattern error if and only if
some entry of some Success- or Fail-state test has its message checked
against the list and the check reaches the invalid pattern. -/
theorem c1_lazy_pattern_failure (ignore_regexes : List String) (tp : TestPass) :
    (runReport ignore_regexes tp).2 = some .invalidIgnorePattern ↔
      ∃ t ∈ tp.tests, (t.state = .Success ∨ t.state = .Fail) ∧
        ∃ e ∈ t.entries,
          should_ignore_message e.event.message ignore_regexes = .error () := by
  rw [runReport_err, renderTests_err]
  constructor
  · rintro ⟨t, ht, hs⟩
    rw [renderTest_err] at hs
    exact ⟨t, (List.mem_insertionSort testLE).mp ht, hs.1, hs.2⟩
  · rintro ⟨t, ht, hstate, he⟩
    exact ⟨t, (List.mem_insertionSort testLE).mpr ht, renderTest_err.mpr ⟨hstate, he⟩⟩

/-! ## C6: byte-order-mark handling -/

theorem utf8DecodeLossy_bom_cons (rest : List Nat) :
    utf8DecodeLossy (0xEF :: 0xBB :: 0xBF :: rest) = '﻿' :: utf8DecodeLossy rest := by
  cases rest with
  | nil => decide
  | cons b4 rest4 =>
    show utf8DecodeLossy (0xEF :: 0xBB :: 0xBF :: b4 :: rest4) = _
    simp only [utf8DecodeLossy, isLead2, isLead3, isLead4, cont2ok, isCont, char3]
    norm_num

/-- Counterexample to **C6**: the claim quantifies over every byte
sequence, but when the remainder itself begins with a BOM the two decodes
differ — `utf_from_bytes` strips only one marker. -/
theorem c6_counterexample :
    utf_from_bytes (bomBytes ++ (bomBytes ++ [0x41])) ≠
      utf_from_bytes (bomBytes ++ [0x41]) := by decide

/-- **C6 (amended)**: for every byte sequence whose decoded text does not
itself begin with the BOM code point, decoding with a BOM prefix and
decoding without it agree; and a BOM-prefixed buffer is re-decoded from
exactly byte 3 on. -/
theorem c6_bom_idempotent (b : List Nat)
    (h : (utf8DecodeLossy b).head? ≠ some '﻿') :
    utf_from_bytes (bomBytes ++ b) = utf_from_bytes b ∧
    utf_from_bytes (bomBytes ++ b) = utf8DecodeLossy ((bomBytes ++ b).drop 3) := by
  have hb : utf8DecodeLossy (bomBytes ++ b) = '﻿' :: utf8DecodeLossy b :=
    utf8DecodeLossy_bom_cons b
  have hd : (bomBytes ++ b).drop 3 = b := rfl
  constructor
  · simp only [utf_from_bytes, hb, hd, List.head?_cons]
    rw [if_pos trivial, if_neg h]
  · simp only [utf_from_bytes, hb, hd, List.head?_cons]
    rw [if_pos trivial]

/-- Witness for the amended C6 at a concrete buffer. -/
theorem c6_bom_idempotent_witness :
    (utf8DecodeLossy [0x41]).head? ≠ some '﻿' ∧
    utf_from_bytes (bomBytes ++ [0x41]) = utf_from_bytes [0x41] :=
  ⟨by decide, (c6_bom_idempotent [0x41] (by decide)).1⟩

/-! ## C2: per-bucket entry visibility -/

theorem flatten_block {α : Type} {b : List α} {L : List (List α)} (h : b ∈ L) :
    ∃ pre post, L.flatten = pre ++ b ++ post := by
  induction L with
  | nil => cases h
  | cons x xs ih =>
    rcases List.mem_cons.mp h with rfl | h
    · exact ⟨[], xs.flatten, by simp⟩
    · obtain ⟨pre, post, hp⟩ := ih h
      exact ⟨x ++ pre, post, by simp [hp]⟩

theorem flatMap_block {α β : Type} {f : α → List β} {a : α} {l : List α} (h : a ∈ l) :
    ∃ pre post, l.flatMap f = pre ++ f a ++ post :=
  flatten_block (List.mem_map_of_mem f h)

/-- No line the `Success` arm can emit for an entry is an `Info` message
line (the arm's catch-all drops `Info` entries). -/
theorem successEntryLines_no_info {e e' : Entry} :
    messageLine log_info e' ∉ successEntryLines e := by
  unfold successEntryLines
  cases e.event.entry_type <;>
    simp [messageLine, locationLine, log_info, log_warn, log_error, plainChunk]

/-- **C2**: for a Success test no Info entry is ever rendered; for a Fail
test all three kinds are eligible (a surviving Info entry's line is in
the output); in both buckets a surviving Warning/Error entry contributes
its message line with the `filename:lineNumber` line directly beneath;
and for any other state the output is exactly the one test path line. -/
theorem c2_entry_visibility (ignore_regexes : List String) (t : Test) (ls : List Line)
    (h : renderTest ignore_regexes t = (ls, none)) :
    (t.state = .Success → ∀ e : Entry, messageLine log_info e ∉ ls) ∧
    (t.state = .Fail → ∀ e ∈ t.entries, isVisible ignore_regexes e = true →
      e.event.entry_type = .Info → messageLine log_info e ∈ ls) ∧
    ((t.state = .Success ∨ t.state = .Fail) → ∀ e ∈ t.entries,
      isVisible ignore_regexes e = true →
      (e.event.entry_type = .Warning →
        ∃ pre post, ls = pre ++ [messageLine log_warn e, locationLine e] ++ post) ∧
      (e.event.entry_type = .Error →
        ∃ pre post, ls = pre ++ [messageLine log_error e, locationLine e] ++ post)) ∧
    (t.state ≠ .Success → t.state ≠ .Fail →
      ls = [[warn_message, ⟨t.full_test_path, .yellow⟩]]) := by
  refine ⟨?_, ?_, ?_, ?_⟩
  · intro hst e hmem
    rw [renderTest_success_ok hst h] at hmem
    rcases List.mem_cons.mp hmem with heq | hmem
    · simp [messageLine, pass_message, plainChunk] at heq
    · obtain ⟨a, _, hin⟩ := List.mem_flatMap.mp hmem
      exact successEntryLines_no_info hin
  · intro hst e he hv hkind
    rw [renderTest_fail_ok hst h]
    apply List.mem_cons_of_mem
    apply List.mem_flatMap.mpr
    refine ⟨e, List.mem_filter.mpr ⟨he, hv⟩, ?_⟩
    simp [failEntryLines, hkind]
  · rintro (hst | hst) e he hv
    · rw [renderTest_success_ok hst h]
      have hmem : e ∈ t.entries.filter (isVisible ignore_regexes) :=
        List.mem_filter.mpr ⟨he, hv⟩
      constructor
      · intro hkind
        obtain ⟨pre, post, hp⟩ :=
          flatMap_block (f := successEntryLines) hmem
        rw [show successEntryLines e = [messageLine log_warn e, locationLine e] from
          by simp [successEntryLines, hkind]] at hp
        exact ⟨[pass_message, ⟨t.full_test_path, .white⟩] :: pre, post, by simp [hp]⟩
      · intro hkind
        obtain ⟨pre, post, hp⟩ :=
          flatMap_block (f := successEntryLines) hmem
        rw [show successEntryLines e = [messageLine log_error e, locationLine e] from
          by simp [successEntryLines, hkind]] at hp
        exact ⟨[pass_message, ⟨t.full_test_path, .white⟩] :: pre, post, by simp [hp]⟩
    · rw [renderTest_fail_ok hst h]
      have hmem : e ∈ t.entries.filter (isVisible ignore_regexes) :=
        List.mem_filter.mpr ⟨he, hv⟩
      constructor
      · intro hkind
        obtain ⟨pre, post, hp⟩ :=
          flatMap_block (f := failEntryLines) hmem
        rw [show failEntryLines e = [messageLine log_warn e, locationLine e] from
          by simp [failEntryLines, hkind]] at hp
        exact ⟨[fail_message, ⟨t.full_test_path, .white⟩] :: pre, post, by simp [hp]⟩
      · intro hkind
        obtain ⟨pre, post, hp⟩ :=
          flatMap_block (f := failEntryLines) hmem
        rw [show failEntryLines e = [messageLine log_error e, locationLine e] from
          by simp [failEntryLines, hkind]] at hp
        exact ⟨[fail_message, ⟨t.full_test_path, .white⟩] :: pre, post, by simp [hp]⟩
  · intro h1 h2
    have h3 := @renderTest_other ignore_regexes t h1 h2
    rw [h] at h3
    exact ((Prod.mk.injEq _ _ _ _).mp h3).1

/-- Witness for C2 at a concrete Fail test with one Error entry. -/
theorem c2_entry_visibility_witness :
    renderTest [] sampleTestB = ((renderTest [] sampleTestB).1, none) ∧
    (∃ pre post, (renderTest [] sampleTestB).1 =
      pre ++ [messageLine log_error sampleErrEntry, locationLine sampleErrEntry] ++ post) := by
  refine ⟨by decide, ?_⟩
  have h := c2_entry_visibility [] sampleTestB (renderTest [] sampleTestB).1 (by decide)
  exact (h.2.2.1 (Or.inr (by decide)) sampleErrEntry (by decide) (by decide)).2 (by decide)

/-! ## C8: malformed reports are fatal with no partial rendering -/

def c8BadTestJson : Json :=
  .obj [("testDisplayName", .str "T"), ("fullTestPath", .str "A.Test"),
        ("state", .str "Unknown"), ("entries", .arr []), ("warnings", .num 0),
        ("errors", .num 0), ("artifacts", .arr [])]

def c8BadDoc : Json :=
  .obj [("reportCreatedOn", .str ""), ("succeeded", .num 2),
        ("succeededWithWarnings", .num 0), ("failed", .num 0), ("notRun", .num 0),
        ("totalDuration", .num 0), ("comparisonExported", .bool false),
        ("comparisonExportDirectory", .str ""), ("tests", .arr [c8BadTestJson])]

/-- **C8**: unparseable text or a structurally invalid document (unknown
enum literal, wrong field type) fails as a malformed report with zero
lines printed; in particular the spec's scenario of a `state` literal
`"Unknown"` fails, and every string outside the five `TestResult`
literals is rejected. -/
theorem c8_malformed_report (ignore_regexes : List String) :
    runProgram ignore_regexes none = ([], some .malformedReport) ∧
    (∀ j : Json, decodeTestPass j = .error () →
      runProgram ignore_regexes (some j) = ([], some .malformedReport)) ∧
    (∀ s : String, s ≠ "NotRun" → s ≠ "InProcess" → s ≠ "Fail" → s ≠ "Success" →
      s ≠ "NotEnoughParticipants" → decodeTestResult (.str s) = .error ()) ∧
    (∀ s : String, decodeI32 (.str s) = .error ()) ∧
    (∀ n : Int, decodeString (.num n) = .error ()) ∧
    decodeTestPass c8BadDoc = .error () ∧
    runProgram ignore_regexes (some c8BadDoc) = ([], some .malformedReport) := by
  refine ⟨rfl, ?_, ?_, fun s => rfl, fun n => rfl, by decide, ?_⟩
  · intro j hj
    simp [runProgram, hj]
  · intro s h1 h2 h3 h4 h5
    simp [decodeTestResult, h1, h2, h3, h4, h5]
  · have : decodeTestPass c8BadDoc = .error () := by decide
    simp [runProgram, this]

/-- Witness for C8 at the concrete bad-state document. -/
theorem c8_malformed_report_witness :
    decodeTestResult (.str "Unknown") = .error () ∧
    runProgram [] (some c8BadDoc) = ([], some .malformedReport) := by
  constructor
  · exact (c8_malformed_report []).2.2.1 "Unknown" (by decide) (by decide) (by decide)
      (by decide) (by decide)
  · exact (c8_malformed_report []).2.1 c8BadDoc (c8_malformed_report []).2.2.2.2.2.1

/-! ## C9: the aggregate counts are i32, and may be negative -/

def c9NegFields : List (String × Json) :=
  [("reportCreatedOn", .str ""), ("succeeded", .num (-1)),
   ("succeededWithWarnings", .num 0), ("failed", .num 0), ("notRun", .num 0),
   ("totalDuration", .num 0), ("comparisonExported", .bool false),
   ("comparisonExportDirectory", .str ""), ("tests", .arr [])]

def c9NegDoc : Json := .obj c9NegFields

def c9NegPass : TestPass :=
  ⟨none, "", -1, 0, 0, 0, none, 0, false, "", []⟩

/-- Counterexample to **C9**: the loader happily decodes a report whose
`succeeded` field is `-1`; no non-negativity is enforced. -/
theorem c9_counterexample :
    decodeTestPass c9NegDoc = .ok c9NegPass ∧ c9NegPass.succeeded < 0 :=
  ⟨by decide, by decide⟩

theorem decodeI32_range {j : Json} {n : Int} (h : decodeI32 j = .ok n) :
    -2147483648 ≤ n ∧ n < 2147483648 := by
  cases j with
  | num m =>
    simp only [decodeI32] at h
    by_cases hc : -2147483648 ≤ m ∧ m < 2147483648
    · rw [if_pos hc] at h
      cases h
      exact hc
    · rw [if_neg hc] at h
      cases h
  | null => simp [decodeI32] at h
  | bool b => simp [decodeI32] at h
  | str s => simp [decodeI32] at h
  | arr l => simp [decodeI32] at h
  | obj l => simp [decodeI32] at h

/-- **C9 (amended)**: in every successfully loaded report the
`succeeded`, `succeededWithWarnings`, `failed` and `notRun` fields hold
integers in the signed 32-bit range; the loader does not reject negative
values. -/
theorem c9_counts_are_i32 (j : Json) (tp : TestPass)
    (h : decodeTestPass j = .ok tp) :
    (-2147483648 ≤ tp.succeeded ∧ tp.succeeded < 2147483648) ∧
    (-2147483648 ≤ tp.succeeded_with_warnings ∧ tp.succeeded_with_warnings < 2147483648) ∧
    (-2147483648 ≤ tp.failed ∧ tp.failed < 2147483648) ∧
    (-2147483648 ≤ tp.not_run ∧ tp.not_run < 2147483648) := by
  cases j with
  | obj fields =>
    simp only [decodeTestPass, except_bind_ok, Except.ok.injEq] at h
    obtain ⟨devices, hdev, rco, hrco, succ, ⟨vs, hvs, hsucc⟩, sww, ⟨vw, hvw, hsww⟩,
      fl, ⟨vf, hvf, hfl⟩, nr, ⟨vn, hvn, hnr⟩, inproc, hin, td, htd, ce, hce,
      ced, hced, tests, htests, htp⟩ := h
    subst htp
    exact ⟨decodeI32_range hsucc, decodeI32_range hsww,
      decodeI32_range hfl, decodeI32_range hnr⟩
  | null => simp [decodeTestPass] at h
  | bool b => simp [decodeTestPass] at h
  | num m => simp [decodeTestPass] at h
  | str s => simp [decodeTestPass] at h
  | arr l => simp [decodeTestPass] at h

/-- Witness for the amended C9 at the concrete negative-count document. -/
theorem c9_counts_are_i32_witness :
    decodeTestPass c9NegDoc = .ok c9NegPass ∧
    -2147483648 ≤ c9NegPass.succeeded ∧ c9NegPass.succeeded < 2147483648 :=
  ⟨by decide, (c9_counts_are_i32 c9NegDoc c9NegPass (by decide)).1⟩

/-! ## C10: unknown fields are ignored at every level -/

def eventKeys : List String := ["type", "message", "context", "artifact"]

def entryKeys : List String := ["event", "filename", "lineNumber", "timestamp"]

def testKeys : List String :=
  ["testDisplayName", "fullTestPath", "state", "entries", "warnings", "errors", "artifacts"]

def deviceKeys : List String :=
  ["deviceName", "instance", "platform", "oSVersion", "model", "gPU", "cPUModel",
   "rAMInGB", "renderMode", "rHI"]

def reportKeys : List String :=
  ["devices", "reportCreatedOn", "succeeded", "succeededWithWarnings", "failed",
   "notRun", "inProcess", "totalDuration", "comparisonExported",
   "comparisonExportDirectory", "tests"]

theorem getField_none {es : List (String × Json)} {key : String}
    (h : ∀ p ∈ es, p.1 ≠ key) : getField es key = none := by
  induction es with
  | nil => rfl
  | cons q rest ih =>
    obtain ⟨k, v⟩ := q
    simp only [getField]
    rw [if_neg (h (k, v) (List.mem_cons_self _ rest))]
    exact ih (fun p hp => h p (List.mem_cons_of_mem _ hp))

theorem getField_append {fs es : List (String × Json)} {key : String}
    (h : ∀ p ∈ es, p.1 ≠ key) : getField (fs ++ es) key = getField fs key := by
  induction fs with
  | nil =>
    rw [List.nil_append]
    exact getField_none h
  | cons q rest ih =>
    obtain ⟨k, v⟩ := q
    rw [List.cons_append]
    simp only [getField]
    split
    · rfl
    · exact ih

/-- **C10**: appending fields whose keys are outside the schema — at the
event, entry, test, device or report level — leaves the decoded value
unchanged (the derived deserializers ignore unknown keys), so unknown
fields never cause a malformed-report failure. -/
theorem c10_unknown_fields_ignored (fs es : List (String × Json)) :
    ((∀ p ∈ es, p.1 ∉ eventKeys) →
      decodeEvent (.obj (fs ++ es)) = decodeEvent (.obj fs)) ∧
    ((∀ p ∈ es, p.1 ∉ entryKeys) →
      decodeEntry (.obj (fs ++ es)) = decodeEntry (.obj fs)) ∧
    ((∀ p ∈ es, p.1 ∉ testKeys) →
      decodeTest (.obj (fs ++ es)) = decodeTest (.obj fs)) ∧
    ((∀ p ∈ es, p.1 ∉ deviceKeys) →
      decodeDevice (.obj (fs ++ es)) = decodeDevice (.obj fs)) ∧
    ((∀ p ∈ es, p.1 ∉ reportKeys) →
      decodeTestPass (.obj (fs ++ es)) = decodeTestPass (.obj fs)) := by
  have key_ne : ∀ (keys : List String), (∀ p ∈ es, p.1 ∉ keys) →
      ∀ k ∈ keys, getField (fs ++ es) k = getField fs k := by
    intro keys hdisj k hk
    exact getField_append (fun p hp hpk => (hdisj p hp) (hpk ▸ hk))
  refine ⟨?_, ?_, ?_, ?_, ?_⟩
  · intro hdisj
    have hk := key_ne eventKeys hdisj
    simp only [decodeEvent, reqField,
      hk "type" (by simp [eventKeys]), hk "message" (by simp [eventKeys]),
      hk "context" (by simp [eventKeys]), hk "artifact" (by simp [eventKeys])]
  · intro hdisj
    have hk := key_ne entryKeys hdisj
    simp only [decodeEntry, reqField,
      hk "event" (by simp [entryKeys]), hk "filename" (by simp [entryKeys]),
      hk "lineNumber" (by simp [entryKeys]), hk "timestamp" (by simp [entryKeys])]
  · intro hdisj
    have hk := key_ne testKeys hdisj
    simp only [decodeTest, reqField,
      hk "testDisplayName" (by simp [testKeys]), hk "fullTestPath" (by simp [testKeys]),
      hk "state" (by simp [testKeys]), hk "entries" (by simp [testKeys]),
      hk "warnings" (by simp [testKeys]), hk "errors" (by simp [testKeys]),
      hk "artifacts" (by simp [testKeys])]
  · intro hdisj
    have hk := key_ne deviceKeys hdisj
    simp only [decodeDevice, reqField,
      hk "deviceName" (by simp [deviceKeys]), hk "instance" (by simp [deviceKeys]),
      hk "platform" (by simp [deviceKeys]), hk "oSVersion" (by simp [deviceKeys]),
      hk "model" (by simp [deviceKeys]), hk "gPU" (by simp [deviceKeys]),
      hk "cPUModel" (by simp [deviceKeys]), hk "rAMInGB" (by simp [deviceKeys]),
      hk "renderMode" (by simp [deviceKeys]), hk "rHI" (by simp [deviceKeys])]
  · intro hdisj
    have hk := key_ne reportKeys hdisj
    simp only [decodeTestPass, reqField, optField,
      hk "devices" (by simp [reportKeys]), hk "reportCreatedOn" (by simp [reportKeys]),
      hk "succeeded" (by simp [reportKeys]),
      hk "succeededWithWarnings" (by simp [reportKeys]),
      hk "failed" (by simp [reportKeys]), hk "notRun" (by simp [reportKeys]),
      hk "inProcess" (by simp [reportKeys]), hk "totalDuration" (by simp [reportKeys]),
      hk "comparisonExported" (by simp [reportKeys]),
      hk "comparisonExportDirectory" (by simp [reportKeys]),
      hk "tests" (by simp [reportKeys])]

/-- Witness for C10: an extra field at the report level. -/
theorem c10_unknown_fields_ignored_witness :
    (∀ p ∈ [(("extra" : String), Json.num 5)], p.1 ∉ reportKeys) ∧
    decodeTestPass (.obj (c9NegFields ++ [(("extra" : String), Json.num 5)])) =
      decodeTestPass (.obj c9NegFields) :=
  ⟨by decide,
   (c10_unknown_fields_ignored c9NegFields
     [(("extra" : String), Json.num 5)]).2.2.2.2 (by decide)⟩

end ParseTests
